import Mathlib

/-!
Verification development for the `rht_data_engineer` repair-order pipeline
(`run_pipeline.py`).  The pipeline parses XML event documents (via the
third-party `xml_to_dict` collaborator), folds them into an in-memory
last-write-wins merge state keyed by `order_id`, prepares the target SQLite
tables, and bulk-loads the result.

The shallow embedding below models:
  * the dynamic dictionary values produced by `XMLtoDict.parse` (`PyVal`);
  * the Python builtins `int()` / `float()` on decimal string literals and
    `datetime.strptime` with the fixed format `%Y-%m-%dT%H:%M:%S`;
  * the per-document parse block (`parseEvent`, lines 160-178 of
    `run_pipeline.py`), the merge loop (`applyEvent` / `pipelineStep`,
    lines 182-196), the schema step (`createTargetTables`, lines 95-131)
    and the load block (`loadBlock`, lines 210-229).
-/

/-- Dynamic values produced by the `xml_to_dict` collaborator (`parse_xml`).
Element text and attribute values are strings, nested elements are string-keyed
dictionaries, repeated sibling elements become lists, and an empty element
becomes `None` (modelled by `noneV`).  These are the only shapes the XML
parser emits, so they are the only constructors needed. -/
inductive PyVal where
  | str (s : String) : PyVal
  | dict (entries : List (String × PyVal)) : PyVal
  | list (items : List PyVal) : PyVal
  | noneV : PyVal

/-- Python subscripting `v[key]`: succeeds only when `v` is a dictionary that
holds `key` (otherwise Python raises `KeyError`/`TypeError`, which the parse
block's `except` clause turns into a document skip). -/
def getKey (v : PyVal) (key : String) : Except String PyVal :=
  match v with
  | .dict entries =>
    match entries.lookup key with
    | some w => .ok w
    | none => .error ("KeyError: " ++ key)
  | _ => .error "TypeError: value is not subscriptable"

def charDigit (c : Char) : Nat := c.toNat - 48

def digitsToNat (acc : Nat) : List Char → Option Nat
  | [] => some acc
  | c :: rest => if c.isDigit then digitsToNat (acc * 10 + charDigit c) rest else none

/-- Model of the Python builtin `int()` on a decimal string literal:
an optional sign followed by at least one digit.  (Surrounding whitespace and
underscore separators, which CPython also tolerates, are outside the scope of
this model; no claim depends on them.) -/
def parseIntStr (s : String) : Option Int :=
  match s.data with
  | '-' :: rest =>
    match rest with
    | [] => none
    | _ => (digitsToNat 0 rest).map (fun n => -(n : Int))
  | '+' :: rest =>
    match rest with
    | [] => none
    | _ => (digitsToNat 0 rest).map (fun n => (n : Int))
  | [] => none
  | l => (digitsToNat 0 l).map (fun n => (n : Int))

/-- `int(v)` on a dynamic value: only strings (of digits) convert; calling
`int` on a dict/list/None raises, which the parse block treats as a skip. -/
def pyInt (v : PyVal) : Except String Int :=
  match v with
  | .str s =>
    match parseIntStr s with
    | some n => .ok n
    | none => .error ("invalid literal for int: " ++ s)
  | _ => .error "TypeError: int() argument"

/-- Exact decimal value produced by the Python builtin `float()` on a decimal
literal, represented as `num / 10 ^ exp` with trailing zeros of the fraction
stripped so that decimally-equal literals (e.g. `110.0` and `110.00`) yield
equal values, as float equality does.  (The further rounding of a decimal to
binary64 is not modelled; no claim performs float arithmetic.) -/
structure DecimalValue where
  num : Int
  exp : Nat
deriving DecidableEq, Repr

def stripTrailingZeros : Int → Nat → Int × Nat
  | n, 0 => (n, 0)
  | n, e + 1 => if n % 10 == 0 then stripTrailingZeros (n / 10) e else (n, e + 1)

def DecimalValue.make (n : Int) (e : Nat) : DecimalValue :=
  let p := stripTrailingZeros n e
  ⟨p.1, p.2⟩

def splitOnDot (before : List Char) : List Char → Option (List Char × List Char)
  | [] => some (before.reverse, [])
  | '.' :: rest => if rest.any (· == '.') then none else some (before.reverse, rest)
  | c :: rest => splitOnDot (c :: before) rest

def parseUnsignedDecimal (l : List Char) : Option DecimalValue :=
  match splitOnDot [] l with
  | none => none
  | some (intPart, fracPart) =>
    if intPart.isEmpty && fracPart.isEmpty then none
    else if !(intPart.all Char.isDigit) || !(fracPart.all Char.isDigit) then none
    else
      match digitsToNat 0 (intPart ++ fracPart) with
      | none => none
      | some n => some (DecimalValue.make (n : Int) fracPart.length)

/-- Model of the Python builtin `float()` on a decimal string literal:
optional sign, then digits with an optional single decimal point
(`"110.00"`, `".5"`, `"3."`, `"7"`).  Exponent/`inf`/`nan` forms are outside
the scope of this model; no claim depends on them. -/
def parseFloatStr (s : String) : Option DecimalValue :=
  match s.data with
  | '-' :: rest => (parseUnsignedDecimal rest).map (fun d => ⟨-d.num, d.exp⟩)
  | '+' :: rest => parseUnsignedDecimal rest
  | l => parseUnsignedDecimal l

/-- `float(v)` on a dynamic value: only numeric strings convert. -/
def pyFloat (v : PyVal) : Except String DecimalValue :=
  match v with
  | .str s =>
    match parseFloatStr s with
    | some d => .ok d
    | none => .error ("could not convert string to float: " ++ s)
  | _ => .error "TypeError: float() argument"

/-- A Python `datetime` as produced by
`datetime.strptime(timestamp, "%Y-%m-%dT%H:%M:%S")` (microseconds are always
zero for this format) or by the sentinel constructor `datetime(1, 1, 1)`. -/
structure PyDateTime where
  year : Nat
  month : Nat
  day : Nat
  hour : Nat
  minute : Nat
  second : Nat
deriving DecidableEq, Repr

/-- `datetime(1, 1, 1)` — the sentinel the merge loop uses for an unseen
order (`run_pipeline.py` line 187, comment: "Earliest possible date"). -/
def minDT : PyDateTime := ⟨1, 1, 1, 0, 0, 0⟩

/-- Python `datetime` comparison is lexicographic on
(year, month, day, hour, minute, second). -/
def PyDateTime.lt (a b : PyDateTime) : Bool :=
  if a.year ≠ b.year then decide (a.year < b.year)
  else if a.month ≠ b.month then decide (a.month < b.month)
  else if a.day ≠ b.day then decide (a.day < b.day)
  else if a.hour ≠ b.hour then decide (a.hour < b.hour)
  else if a.minute ≠ b.minute then decide (a.minute < b.minute)
  else decide (a.second < b.second)

def isLeapYear (y : Nat) : Bool :=
  y % 4 == 0 && (y % 100 != 0 || y % 400 == 0)

def daysInMonth (y m : Nat) : Nat :=
  if m == 2 then (if isLeapYear y then 29 else 28)
  else if m == 4 || m == 6 || m == 9 || m == 11 then 30
  else 31

/-- The field ranges enforced by the `datetime` constructor (and hence
satisfied by every value `strptime` can return, sentinel included). -/
def PyDateTime.valid (t : PyDateTime) : Bool :=
  1 ≤ t.year && t.year ≤ 9999 &&
  1 ≤ t.month && t.month ≤ 12 &&
  1 ≤ t.day && t.day ≤ daysInMonth t.year t.month &&
  t.hour ≤ 23 && t.minute ≤ 59 && t.second ≤ 59

/-- Mixed-radix key: for valid datetimes, key order coincides with the
lexicographic comparison `PyDateTime.lt`. -/
def PyDateTime.key (t : PyDateTime) : Nat :=
  ((((t.year * 13 + t.month) * 32 + t.day) * 24 + t.hour) * 60 + t.minute) * 60 + t.second

/-- CPython `_strptime` matches `%m`/`%d`/`%H`/`%M`/`%S` with a regex that
prefers a valid two-digit form and falls back to one digit.  `ok2` is the
two-digit range test, `ok1` the one-digit range test. -/
def takeField (ok2 : Nat → Bool) (ok1 : Nat → Bool) :
    List Char → Option (Nat × List Char)
  | c1 :: c2 :: rest =>
    if c1.isDigit && c2.isDigit && ok2 (charDigit c1 * 10 + charDigit c2) then
      some (charDigit c1 * 10 + charDigit c2, rest)
    else if c1.isDigit && ok1 (charDigit c1) then some (charDigit c1, c2 :: rest)
    else none
  | [c1] => if c1.isDigit && ok1 (charDigit c1) then some (charDigit c1, []) else none
  | [] => none

/-- `%Y` matches exactly four digits. -/
def takeYear : List Char → Option (Nat × List Char)
  | a :: b :: c :: d :: rest =>
    if a.isDigit && b.isDigit && c.isDigit && d.isDigit then
      some (((charDigit a * 10 + charDigit b) * 10 + charDigit c) * 10 + charDigit d, rest)
    else none
  | _ => none

def takeLit (ch : Char) : List Char → Option (List Char)
  | c :: rest => if c == ch then some rest else none
  | [] => none

/-- Model of `datetime.strptime(s, "%Y-%m-%dT%H:%M:%S")`
(`run_pipeline.py` line 178 with `TIMESTAMP_FORMAT`, line 64): the format
must match the entire string, and the matched fields must form a valid
`datetime` (day checked against the month length, year at least 1). -/
def parseTimestampStr (s : String) : Option PyDateTime :=
  match takeYear s.data with
  | none => none
  | some (y, r1) =>
  match takeLit '-' r1 with
  | none => none
  | some r2 =>
  match takeField (fun v => 1 ≤ v && v ≤ 12) (fun v => 1 ≤ v && v ≤ 9) r2 with
  | none => none
  | some (mo, r3) =>
  match takeLit '-' r3 with
  | none => none
  | some r4 =>
  match takeField (fun v => 1 ≤ v && v ≤ 31) (fun v => 1 ≤ v && v ≤ 9) r4 with
  | none => none
  | some (d, r5) =>
  match takeLit 'T' r5 with
  | none => none
  | some r6 =>
  match takeField (fun v => v ≤ 23) (fun v => v ≤ 9) r6 with
  | none => none
  | some (h, r7) =>
  match takeLit ':' r7 with
  | none => none
  | some r8 =>
  match takeField (fun v => v ≤ 59) (fun v => v ≤ 9) r8 with
  | none => none
  | some (mi, r9) =>
  match takeLit ':' r9 with
  | none => none
  | some r10 =>
  match takeField (fun v => v ≤ 59) (fun v => v ≤ 9) r10 with
  | none => none
  | some (sec, r11) =>
  match r11 with
  | _ :: _ => none
  | [] =>
    if 1 ≤ y && d ≤ daysInMonth y mo then some ⟨y, mo, d, h, mi, sec⟩ else none

def pyStrptime (v : PyVal) : Except String PyDateTime :=
  match v with
  | .str s =>
    match parseTimestampStr s with
    | some t => .ok t
    | none => .error ("time data does not match format: " ++ s)
  | _ => .error "TypeError: strptime() argument"

/-- The child dataclass (`run_pipeline.py` lines 41-48).  Python does not
enforce dataclass annotations at runtime: `order_id` really is an `int`
(the constructor call passes the already-coerced `order_id`), but
`part_name` and `quantity` hold whatever `part["@name"]` / `part["@quantity"]`
returned — the raw dynamic values, with no coercion applied. -/
structure RepairOrderDetail where
  order_id : Int
  part_name : PyVal
  quantity : PyVal

/-- The parent dataclass (`run_pipeline.py` lines 51-60).  `order_id`,
`timestamp` and `cost` are coerced by `int()` / `strptime` / `float()`
before construction; `status` and `technician` are raw dictionary lookups
(the `Status` enumeration is never used to validate them). -/
structure RepairOrder where
  order_id : Int
  timestamp : PyDateTime
  status : PyVal
  cost : DecimalValue
  technician : PyVal

/-- The values the per-document `try` block binds on success
(`run_pipeline.py` lines 162-178): everything needed by the merge loop. -/
structure ParsedEvent where
  order_id : Int
  status : PyVal
  cost : DecimalValue
  technician : PyVal
  parts : List RepairOrderDetail
  timestamp : PyDateTime

/-- `if isinstance(parts, dict): parts = [parts]` (lines 168-169), followed by
iteration.  A dict is re-wrapped into a one-element list; a list is used as
is; any other value makes the subsequent per-part subscripting raise, which
the `except` clause turns into a document skip.  (Python would iterate a
string character-by-character and raise on the first `char["@name"]`; an
empty string never occurs here because `xml_to_dict` renders an empty
element as `None`, not `""`.) -/
def normalizeParts (v : PyVal) : Except String (List PyVal) :=
  match v with
  | .dict entries => .ok [.dict entries]
  | .list items => .ok items
  | _ => .error "TypeError: parts is not iterable as part dicts"

/-- One iteration of the `for part in parts` loop (lines 170-176): both
attribute lookups must succeed; the values are stored raw (note the absent
`int()` around `part[Tag.QUANTITY]`, despite the `quantity: int`
annotation). -/
def extractPart (order_id : Int) (p : PyVal) : Except String RepairOrderDetail := do
  let name ← getKey p "@name"
  let qty ← getKey p "@quantity"
  .ok ⟨order_id, name, qty⟩

def extractParts (order_id : Int) : List PyVal → Except String (List RepairOrderDetail)
  | [] => .ok []
  | p :: rest => do
    let d ← extractPart order_id p
    let ds ← extractParts order_id rest
    .ok (d :: ds)

/-- The per-document parse block (`run_pipeline.py` lines 162-178), operating
on the dictionary returned by `parse_xml` for one file.  Field extraction
order follows the source; any raised exception is surfaced as `.error`,
which the driver treats as "skip this document". -/
def parseEvent (doc : PyVal) : Except String ParsedEvent := do
  let order_raw ← getKey doc "event"
  let order_id ← pyInt (← getKey order_raw "order_id")
  let status ← getKey order_raw "status"
  let cost ← pyFloat (← getKey order_raw "cost")
  let repair_details ← getKey order_raw "repair_details"
  let technician ← getKey repair_details "technician"
  let partsRaw ← getKey (← getKey repair_details "repair_parts") "part"
  let partsList ← normalizeParts partsRaw
  let temp_list ← extractParts order_id partsList
  let timestampRaw ← getKey order_raw "date_time"
  let timestamp ← pyStrptime timestampRaw
  .ok ⟨order_id, status, cost, technician, temp_list, timestamp⟩

/-- The two in-memory dictionaries of the merge loop
(`repair_order_dict` and `repair_order_detail_dict`, lines 156-157),
modelled as association lists with Python-dict insertion semantics. -/
structure MergeState where
  orders : List (Int × RepairOrder)
  details : List (Int × List RepairOrderDetail)

def emptyState : MergeState := ⟨[], []⟩

/-- Python `d[k] = v`: update in place when the key exists, append
otherwise. -/
def dictInsert {α : Type} (k : Int) (v : α) : List (Int × α) → List (Int × α)
  | [] => [(k, v)]
  | (k', v') :: rest => if k' = k then (k, v) :: rest else (k', v') :: dictInsert k v rest

/-- Python `d.get(k)` / `k in d`. -/
def dictLookup {α : Type} (k : Int) : List (Int × α) → Option α
  | [] => none
  | (k', v') :: rest => if k' = k then some v' else dictLookup k rest

/-- The `RepairOrder(...)` constructor call of the merge loop
(lines 189-195). -/
def headerOf (e : ParsedEvent) : RepairOrder :=
  ⟨e.order_id, e.timestamp, e.status, e.cost, e.technician⟩

/-- The merge step (`run_pipeline.py` lines 182-196): look up the stored
timestamp (sentinel `datetime(1, 1, 1)` for an unseen order); when the
event's timestamp is strictly greater, replace both the header and the
whole detail list; otherwise leave the state unchanged. -/
def applyEvent (s : MergeState) (e : ParsedEvent) : MergeState :=
  let existing_timestamp :=
    match dictLookup e.order_id s.orders with
    | some ro => ro.timestamp
    | none => minDT
  if existing_timestamp.lt e.timestamp then
    { orders := dictInsert e.order_id (headerOf e) s.orders,
      details := dictInsert e.order_id e.parts s.details }
  else s

/-- One iteration of the driver loop (lines 159-196): parse, and on failure
log and `continue` with the state untouched. -/
def pipelineStep (s : MergeState) (doc : PyVal) : MergeState :=
  match parseEvent doc with
  | .error _ => s
  | .ok e => applyEvent s e

/-- The whole driver loop over the documents yielded by
`read_files_from_dir` — the list order models the ascending lexicographic
filename order produced by `sorted(folder.glob("*.xml"))` (line 76). -/
def runDocs (docs : List PyVal) (s : MergeState) : MergeState :=
  docs.foldl pipelineStep s

/-- A `repair_order` table row, per the schema of `create_target_tables`
(`run_pipeline.py` lines 104-113): `order_id integer, timestamp text,
status text, cost real, technician text, primary key (order_id)`. -/
structure OrderRow where
  order_id : Int
  timestamp : String
  status : String
  cost : DecimalValue
  technician : String
deriving DecidableEq, Repr

/-- A `repair_order_detail` table row, per the schema of
`create_target_tables` (lines 119-127): `order_id integer, part_name text,
quantity int, primary key (order_id, part_name), foreign key (order_id)
references repair_order(order_id)`. -/
structure DetailRow where
  order_id : Int
  part_name : String
  quantity : Int
deriving DecidableEq, Repr

/-- The observable state of the SQLite database: which of the two target
tables exist, and their rows. -/
structure Store where
  hasOrderTable : Bool
  hasDetailTable : Bool
  orderRows : List OrderRow
  detailRows : List DetailRow
deriving DecidableEq, Repr

/-- `create table` (lines 104-114 / 119-128): SQLite raises
`table ... already exists` when the table is present, so duplicate creation
is impossible — the guard in `create_target_tables` avoids ever hitting
that error. -/
def createTable (s : Store) (name : String) : Except String Store :=
  if name = "repair_order" then
    if s.hasOrderTable then .error "table repair_order already exists"
    else .ok { s with hasOrderTable := true }
  else if name = "repair_order_detail" then
    if s.hasDetailTable then .error "table repair_order_detail already exists"
    else .ok { s with hasDetailTable := true }
  else .error "unknown table"

/-- `delete from <table>` (line 131): empties the rows; SQLite errors when
the table does not exist. -/
def deleteFrom (s : Store) (name : String) : Except String Store :=
  if name = "repair_order" then
    if s.hasOrderTable then .ok { s with orderRows := [] }
    else .error "no such table: repair_order"
  else if name = "repair_order_detail" then
    if s.hasDetailTable then .ok { s with detailRows := [] }
    else .error "no such table: repair_order_detail"
  else .error "unknown table"

/-- The deletion order hard-coded in the loop
`for table_name in "repair_order_detail", "repair_order"` (line 130):
the child table strictly before the parent table. -/
def resetTableOrder : List String := ["repair_order_detail", "repair_order"]

/-- `create_target_tables` (`run_pipeline.py` lines 95-131): create each
table only when the `sqlite_master` count says it is absent, then
unconditionally delete all rows, detail table first. -/
def createTargetTables (s : Store) : Except String Store := do
  let s1 ← if s.hasOrderTable then pure s else createTable s "repair_order"
  let s2 ← if s1.hasDetailTable then pure s1 else createTable s1 "repair_order_detail"
  let s3 ← deleteFrom s2 "repair_order_detail"
  let s4 ← deleteFrom s3 "repair_order"
  .ok s4

/-- The foreign-key relationship of the schema: every detail row's
`order_id` references some header row. -/
def fkOK (s : Store) : Bool :=
  s.detailRows.all (fun d => s.orderRows.any (fun o => o.order_id == d.order_id))

def allDistinct {α : Type} [BEq α] : List α → Bool
  | [] => true
  | k :: rest => !(rest.contains k) && allDistinct rest

/-- `repair_order_df.to_sql(..., if_exists="append", ...)` (line 216):
appends the rows; raises when the table is missing or when the batch
violates the `order_id` primary key. -/
def insertOrderRows (s : Store) (rows : List OrderRow) : Except String Store :=
  if !s.hasOrderTable then .error "no such table: repair_order"
  else if !allDistinct ((s.orderRows ++ rows).map OrderRow.order_id) then
    .error "UNIQUE constraint failed: repair_order.order_id"
  else .ok { s with orderRows := s.orderRows ++ rows }

/-- `repair_order_detail_df.to_sql(..., if_exists="append", ...)` (line 225):
appends the rows; raises when the table is missing or when the batch
violates the `(order_id, part_name)` primary key. -/
def insertDetailRows (s : Store) (rows : List DetailRow) : Except String Store :=
  if !s.hasDetailTable then .error "no such table: repair_order_detail"
  else if !allDistinct ((s.detailRows ++ rows).map (fun d => (d.order_id, d.part_name))) then
    .error "UNIQUE constraint failed: repair_order_detail.order_id, repair_order_detail.part_name"
  else .ok { s with detailRows := s.detailRows ++ rows }

/-- The two bulk-insert attempts the load block performs, in order. -/
inductive LoadOp where
  | insertOrders : LoadOp
  | insertDetails : LoadOp
deriving DecidableEq, Repr

/-- The load block (`run_pipeline.py` lines 212-229): insert the header rows;
on failure log and `exit(1)` without touching the detail table.  Otherwise
insert the detail rows; on failure log and `exit(1)` leaving the headers
persisted.  Result: final store, process exit code, and the trace of insert
attempts in execution order. -/
def loadBlock (s : Store) (headerRows : List OrderRow) (detailRowsIn : List DetailRow) :
    Store × Nat × List LoadOp :=
  match insertOrderRows s headerRows with
  | .error _ => (s, 1, [LoadOp.insertOrders])
  | .ok s1 =>
    match insertDetailRows s1 detailRowsIn with
    | .error _ => (s1, 1, [LoadOp.insertOrders, LoadOp.insertDetails])
    | .ok s2 => (s2, 0, [LoadOp.insertOrders, LoadOp.insertDetails])

/-- The parsed form (`parse_xml` output) of the sample document in
`tests.py`: order 104, timestamp `2023-08-11T12:00:00`, status `Completed`,
cost `110.00`, technician `Robert White`, two parts. -/
def docA : PyVal :=
  .dict [("event", .dict [
    ("order_id", .str "104"),
    ("date_time", .str "2023-08-11T12:00:00"),
    ("status", .str "Completed"),
    ("cost", .str "110.00"),
    ("repair_details", .dict [
      ("technician", .str "Robert White"),
      ("repair_parts", .dict [
        ("part", .list [
          .dict [("@name", .str "Tire"), ("@quantity", .str "2")],
          .dict [("@name", .str "Brake Fluid"), ("@quantity", .str "1")]])])])])]

/-- The event `parseEvent` produces for `docA`. -/
def evA : ParsedEvent :=
  ⟨104, .str "Completed", ⟨110, 0⟩, .str "Robert White",
   [⟨104, .str "Tire", .str "2"⟩, ⟨104, .str "Brake Fluid", .str "1"⟩],
   ⟨2023, 8, 11, 12, 0, 0⟩⟩

/-- A later report for the same order (the `b.xml` of the end-to-end
scenario in the design document): timestamp `2023-08-12T09:00:00`, status
`Reopened`, a single part — note the parts block is a single mapping, not a
list. -/
def docB : PyVal :=
  .dict [("event", .dict [
    ("order_id", .str "104"),
    ("date_time", .str "2023-08-12T09:00:00"),
    ("status", .str "Reopened"),
    ("cost", .str "95.50"),
    ("repair_details", .dict [
      ("technician", .str "Jane Fix"),
      ("repair_parts", .dict [
        ("part", .dict [("@name", .str "Tire"), ("@quantity", .str "1")])])])])]

/-- The event `parseEvent` produces for `docB`; its single part has been
re-wrapped into a one-element list. -/
def evB : ParsedEvent :=
  ⟨104, .str "Reopened", ⟨955, 1⟩, .str "Jane Fix",
   [⟨104, .str "Tire", .str "1"⟩],
   ⟨2023, 8, 12, 9, 0, 0⟩⟩

/-- A well-formed document whose timestamp is the minimal representable
instant `0001-01-01T00:00:00` — it parses successfully, to an event whose
timestamp equals the merge loop's sentinel. -/
def docMinA : PyVal :=
  .dict [("event", .dict [
    ("order_id", .str "104"),
    ("date_time", .str "0001-01-01T00:00:00"),
    ("status", .str "Received"),
    ("cost", .str "10.00"),
    ("repair_details", .dict [
      ("technician", .str "Alpha Tech"),
      ("repair_parts", .dict [
        ("part", .dict [("@name", .str "Bolt"), ("@quantity", .str "4")])])])])]

def evMinA : ParsedEvent :=
  ⟨104, .str "Received", ⟨10, 0⟩, .str "Alpha Tech",
   [⟨104, .str "Bolt", .str "4"⟩], minDT⟩

/-- A second minimal-timestamp document for the same order, from a later
file in processing order. -/
def docMinB : PyVal :=
  .dict [("event", .dict [
    ("order_id", .str "104"),
    ("date_time", .str "0001-01-01T00:00:00"),
    ("status", .str "Completed"),
    ("cost", .str "20.00"),
    ("repair_details", .dict [
      ("technician", .str "Beta Tech"),
      ("repair_parts", .dict [
        ("part", .dict [("@name", .str "Nut"), ("@quantity", .str "8")])])])])]

def evMinB : ParsedEvent :=
  ⟨104, .str "Completed", ⟨20, 0⟩, .str "Beta Tech",
   [⟨104, .str "Nut", .str "8"⟩], minDT⟩

/-- A malformed document: the `technician` field is missing, so the lookup
raises `KeyError` and the document is skipped (the end-to-end error scenario
of the design document). -/
def docBadTech : PyVal :=
  .dict [("event", .dict [
    ("order_id", .str "105"),
    ("date_time", .str "2023-08-11T12:00:00"),
    ("status", .str "Completed"),
    ("cost", .str "55.00"),
    ("repair_details", .dict [
      ("repair_parts", .dict [
        ("part", .dict [("@name", .str "Tire"), ("@quantity", .str "1")])])])])]

/-- A second report of order 104 carrying the same (non-minimal) timestamp
as `evA` — a tie under the last-write-wins comparison. -/
def evTieB : ParsedEvent :=
  ⟨104, .str "In Progress", ⟨42, 0⟩, .str "Second Tech",
   [⟨104, .str "Hose", .str "3"⟩], ⟨2023, 8, 11, 12, 0, 0⟩⟩

/-- The path `parse_xml(content)["event"]["repair_details"]["repair_parts"]["part"]`
(lines 162, 166-167): the raw parts block of a document, before the
single-part normalization. -/
def partsFieldOf (doc : PyVal) : Except String PyVal := do
  let order_raw ← getKey doc "event"
  let repair_details ← getKey order_raw "repair_details"
  let repair_parts ← getKey repair_details "repair_parts"
  getKey repair_parts "part"

/-- A sample persisted header row for order 104. -/
def rowA : OrderRow := ⟨104, "2023-08-11T12:00:00", "Completed", ⟨110, 0⟩, "Robert White"⟩

/-- A sample persisted detail row for order 104. -/
def detailRowA : DetailRow := ⟨104, "Tire", 2⟩

/-- A store in which both target tables exist and the header table already
holds a row. -/
def storeWithRow : Store := ⟨true, true, [rowA], []⟩

/-- A store in which both tables exist with a header row and a matching
detail row (the foreign key is satisfied). -/
def storePopulated : Store := ⟨true, true, [rowA], [detailRowA]⟩

/-- A store in which neither target table exists, so any insert fails. -/
def storeNoTables : Store := ⟨false, false, [], []⟩

/-- A store with both tables present and empty. -/
def storeEmptyTables : Store := ⟨true, true, [], []⟩

lemma daysInMonth_le (y m : Nat) : daysInMonth y m ≤ 31 := by
  unfold daysInMonth
  split
  · split <;> omega
  · split <;> omega

lemma valid_bounds (t : PyDateTime) (h : t.valid = true) :
    1 ≤ t.year ∧ t.year ≤ 9999 ∧ 1 ≤ t.month ∧ t.month ≤ 12 ∧
    1 ≤ t.day ∧ t.day ≤ 31 ∧ t.hour ≤ 23 ∧ t.minute ≤ 59 ∧ t.second ≤ 59 := by
  unfold PyDateTime.valid at h
  simp only [Bool.and_eq_true, decide_eq_true_eq] at h
  have h31 := daysInMonth_le t.year t.month
  omega

lemma minDT_valid : minDT.valid = true := rfl

lemma lt_eq_key (a b : PyDateTime) (ha : a.valid = true) (hb : b.valid = true) :
    a.lt b = decide (a.key < b.key) := by
  obtain ⟨a1, a2, a3, a4, a5, a6, a7, a8, a9⟩ := valid_bounds a ha
  obtain ⟨b1, b2, b3, b4, b5, b6, b7, b8, b9⟩ := valid_bounds b hb
  unfold PyDateTime.lt PyDateTime.key
  split_ifs with h1 h2 h3 h4 h5 <;> rw [decide_eq_decide] <;> omega

lemma key_inj (a b : PyDateTime) (ha : a.valid = true) (hb : b.valid = true)
    (h : a.key = b.key) : a = b := by
  obtain ⟨a1, a2, a3, a4, a5, a6, a7, a8, a9⟩ := valid_bounds a ha
  obtain ⟨b1, b2, b3, b4, b5, b6, b7, b8, b9⟩ := valid_bounds b hb
  unfold PyDateTime.key at h
  obtain ⟨ya, moa, da, ha', mia, sa⟩ := a
  obtain ⟨yb, mob, db, hb', mib, sb⟩ := b
  simp only [PyDateTime.mk.injEq]
  simp only at *
  omega

lemma lt_self (t : PyDateTime) : t.lt t = false := by
  unfold PyDateTime.lt
  simp

lemma minDT_key_le (t : PyDateTime) (h : t.valid = true) : minDT.key ≤ t.key := by
  obtain ⟨a1, a2, a3, a4, a5, a6, a7, a8, a9⟩ := valid_bounds t h
  unfold PyDateTime.key minDT
  simp only
  omega

lemma minDT_lt_of_ne (t : PyDateTime) (h : t.valid = true) (hne : t ≠ minDT) :
    minDT.lt t = true := by
  rw [lt_eq_key minDT t minDT_valid h, decide_eq_true_eq]
  have hle := minDT_key_le t h
  rcases Nat.lt_or_ge minDT.key t.key with hlt | hge
  · exact hlt
  · exact absurd (key_inj t minDT h minDT_valid (Nat.le_antisymm hge hle)) hne

lemma lt_total (a b : PyDateTime) (ha : a.valid = true) (hb : b.valid = true)
    (hne : a ≠ b) : a.lt b = true ∨ b.lt a = true := by
  rw [lt_eq_key a b ha hb, lt_eq_key b a hb ha]
  simp only [decide_eq_true_eq]
  rcases Nat.lt_trichotomy a.key b.key with h | h | h
  · exact Or.inl h
  · exact absurd (key_inj a b ha hb h) hne
  · exact Or.inr h

lemma lt_asymm' (a b : PyDateTime) (ha : a.valid = true) (hb : b.valid = true)
    (h : a.lt b = true) : b.lt a = false := by
  rw [lt_eq_key a b ha hb, decide_eq_true_eq] at h
  rw [lt_eq_key b a hb ha, decide_eq_false_iff_not]
  omega

lemma dictLookup_insert_self {α : Type} (k : Int) (v : α) (l : List (Int × α)) :
    dictLookup k (dictInsert k v l) = some v := by
  induction l with
  | nil => simp [dictInsert, dictLookup]
  | cons p rest ih =>
    obtain ⟨k', v'⟩ := p
    by_cases h : k' = k <;> simp [dictInsert, dictLookup, h, ih]

lemma dictLookup_insert_ne {α : Type} (k k' : Int) (v : α) (l : List (Int × α))
    (h : k' ≠ k) : dictLookup k' (dictInsert k v l) = dictLookup k' l := by
  induction l with
  | nil => simp [dictInsert, dictLookup, h, Ne.symm h]
  | cons p rest ih =>
    obtain ⟨k'', v''⟩ := p
    by_cases hk : k'' = k
    · subst hk
      simp [dictInsert, dictLookup, Ne.symm h, h]
    · by_cases hk' : k'' = k' <;>
        simp [dictInsert, dictLookup, hk, hk', ih, Ne.symm h, h]

lemma mem_keys_insert {α : Type} (x k : Int) (v : α) (l : List (Int × α)) :
    x ∈ (dictInsert k v l).map Prod.fst ↔ x = k ∨ x ∈ l.map Prod.fst := by
  induction l with
  | nil => simp [dictInsert]
  | cons p rest ih =>
    obtain ⟨k', v'⟩ := p
    by_cases h : k' = k
    · subst h
      simp [dictInsert]
    · simp only [dictInsert, if_neg h, List.map_cons, List.mem_cons, ih]
      tauto

lemma nodup_keys_insert {α : Type} (k : Int) (v : α) (l : List (Int × α))
    (h : (l.map Prod.fst).Nodup) : ((dictInsert k v l).map Prod.fst).Nodup := by
  induction l with
  | nil => simp [dictInsert]
  | cons p rest ih =>
    obtain ⟨k', v'⟩ := p
    simp only [List.map_cons, List.nodup_cons] at h
    by_cases hk : k' = k
    · subst hk
      simpa [dictInsert] using h
    · simp only [dictInsert, if_neg hk, List.map_cons, List.nodup_cons]
      refine ⟨fun hc => ?_, ih h.2⟩
      rcases (mem_keys_insert k' k v rest).1 hc with h1 | h1
      · exact hk h1
      · exact h.1 h1

lemma dictLookup_isSome_iff {α : Type} (k : Int) (l : List (Int × α)) :
    (dictLookup k l).isSome = true ↔ k ∈ l.map Prod.fst := by
  induction l with
  | nil => simp [dictLookup]
  | cons p rest ih =>
    obtain ⟨k', v'⟩ := p
    by_cases h : k' = k
    · subst h
      simp [dictLookup]
    · simp [dictLookup, h, ih, Ne.symm h]

/-- Merge step on an order id not yet present: the stored timestamp is the
sentinel `datetime(1, 1, 1)`. -/
lemma applyEvent_not_present (s : MergeState) (e : ParsedEvent)
    (ho : dictLookup e.order_id s.orders = none) :
    applyEvent s e =
      if minDT.lt e.timestamp then
        { orders := dictInsert e.order_id (headerOf e) s.orders,
          details := dictInsert e.order_id e.parts s.details }
      else s := by
  unfold applyEvent
  rw [ho]

/-- Merge step on an order id already present: the stored winner's
timestamp is compared. -/
lemma applyEvent_present (s : MergeState) (e : ParsedEvent) (ro : RepairOrder)
    (ho : dictLookup e.order_id s.orders = some ro) :
    applyEvent s e =
      if ro.timestamp.lt e.timestamp then
        { orders := dictInsert e.order_id (headerOf e) s.orders,
          details := dictInsert e.order_id e.parts s.details }
      else s := by
  unfold applyEvent
  rw [ho]

/-- C1: For every pair of successfully parsed events sharing an `order_id`
and carrying distinct timestamps, the final merge state for that order —
both the `RepairOrder` header and the entire detail list — is exactly the
data of the event with the strictly greater timestamp; nothing of the
losing event survives. -/
theorem merge_last_write_wins (s : MergeState) (e1 e2 : ParsedEvent)
    (hoid : e2.order_id = e1.order_id)
    (hv1 : e1.timestamp.valid = true) (hv2 : e2.timestamp.valid = true)
    (hne : e1.timestamp ≠ e2.timestamp)
    (ho : dictLookup e1.order_id s.orders = none) :
    dictLookup e1.order_id (applyEvent (applyEvent s e1) e2).orders =
      some (headerOf (if e1.timestamp.lt e2.timestamp then e2 else e1)) ∧
    dictLookup e1.order_id (applyEvent (applyEvent s e1) e2).details =
      some (if e1.timestamp.lt e2.timestamp then e2 else e1).parts := by
  by_cases hm : e1.timestamp = minDT
  · have hs1 : applyEvent s e1 = s := by
      rw [applyEvent_not_present s e1 ho, hm, lt_self]
      simp
    have hne2 : e2.timestamp ≠ minDT := fun h => hne (hm.trans h.symm)
    have hlt12 : e1.timestamp.lt e2.timestamp = true := by
      rw [hm]; exact minDT_lt_of_ne _ hv2 hne2
    have ho2 : dictLookup e2.order_id s.orders = none := by rw [hoid]; exact ho
    rw [hs1, applyEvent_not_present s e2 ho2, minDT_lt_of_ne _ hv2 hne2, hlt12]
    simp only [if_true, hoid]
    exact ⟨dictLookup_insert_self _ _ _, dictLookup_insert_self _ _ _⟩
  · have hlt1 : minDT.lt e1.timestamp = true := minDT_lt_of_ne _ hv1 hm
    have hs1 : applyEvent s e1 =
        { orders := dictInsert e1.order_id (headerOf e1) s.orders,
          details := dictInsert e1.order_id e1.parts s.details } := by
      rw [applyEvent_not_present s e1 ho, hlt1]
      simp
    have ho2 : dictLookup e2.order_id (applyEvent s e1).orders = some (headerOf e1) := by
      rw [hs1, hoid]
      exact dictLookup_insert_self _ _ _
    rw [applyEvent_present _ e2 _ ho2]
    cases hlt12 : e1.timestamp.lt e2.timestamp with
    | true =>
      have ht : (headerOf e1).timestamp.lt e2.timestamp = true := hlt12
      rw [ht]
      simp only [if_true, hoid]
      exact ⟨dictLookup_insert_self _ _ _, dictLookup_insert_self _ _ _⟩
    | false =>
      have ht : (headerOf e1).timestamp.lt e2.timestamp = false := hlt12
      rw [ht]
      simp only [Bool.false_eq_true, if_false, hs1]
      exact ⟨dictLookup_insert_self _ _ _, dictLookup_insert_self _ _ _⟩

/-- C1 witness: the end-to-end scenario of the design document — the
2023-08-11 report of order 104 followed by the 2023-08-12 report; the later
report's header and single-part detail list win. -/
theorem merge_last_write_wins_witness :
    dictLookup evA.order_id (applyEvent (applyEvent emptyState evA) evB).orders =
      some (headerOf (if evA.timestamp.lt evB.timestamp then evB else evA)) ∧
    dictLookup evA.order_id (applyEvent (applyEvent emptyState evA) evB).details =
      some (if evA.timestamp.lt evB.timestamp then evB else evA).parts :=
  merge_last_write_wins emptyState evA evB rfl rfl rfl (by decide) rfl

/-- C2 (amended): when two events for the same `order_id` carry equal
timestamps, the first-processed event is the one retained — provided the
shared timestamp is strictly later than the sentinel `0001-01-01T00:00:00`
(equal minimal timestamps leave no entry at all, see the
counterexample). -/
theorem merge_tie_first_wins (s : MergeState) (e1 e2 : ParsedEvent)
    (hoid : e2.order_id = e1.order_id)
    (hv : e1.timestamp.valid = true)
    (heq : e2.timestamp = e1.timestamp)
    (hmin : e1.timestamp ≠ minDT)
    (ho : dictLookup e1.order_id s.orders = none) :
    dictLookup e1.order_id (applyEvent (applyEvent s e1) e2).orders =
      some (headerOf e1) ∧
    dictLookup e1.order_id (applyEvent (applyEvent s e1) e2).details =
      some e1.parts := by
  have hlt1 : minDT.lt e1.timestamp = true := minDT_lt_of_ne _ hv hmin
  have hs1 : applyEvent s e1 =
      { orders := dictInsert e1.order_id (headerOf e1) s.orders,
        details := dictInsert e1.order_id e1.parts s.details } := by
    rw [applyEvent_not_present s e1 ho, hlt1]
    simp
  have ho2 : dictLookup e2.order_id (applyEvent s e1).orders = some (headerOf e1) := by
    rw [hs1, hoid]
    exact dictLookup_insert_self _ _ _
  have ht : (headerOf e1).timestamp.lt e2.timestamp = false := by
    show e1.timestamp.lt e2.timestamp = false
    rw [heq]
    exact lt_self _
  rw [applyEvent_present _ e2 _ ho2, ht]
  simp only [Bool.false_eq_true, if_false, hs1]
  exact ⟨dictLookup_insert_self _ _ _, dictLookup_insert_self _ _ _⟩

/-- C2 witness: two reports of order 104 with the same (non-minimal)
timestamp `2023-08-11T12:00:00`; the first-processed one is retained. -/
theorem merge_tie_first_wins_witness :
    dictLookup evA.order_id (applyEvent (applyEvent emptyState evA) evTieB).orders =
      some (headerOf evA) ∧
    dictLookup evA.order_id (applyEvent (applyEvent emptyState evA) evTieB).details =
      some evA.parts :=
  merge_tie_first_wins emptyState evA evTieB rfl rfl rfl (by decide) rfl

/-- C2 counterexample: two successfully parsed events share `order_id` 104
and carry equal timestamps (`0001-01-01T00:00:00`), yet the first-processed
event is NOT retained — the final merge state holds no entry whatsoever for
that order, because neither event's timestamp strictly exceeds the
sentinel. -/
theorem merge_tie_counterexample :
    parseEvent docMinA = .ok evMinA ∧ parseEvent docMinB = .ok evMinB ∧
    evMinB.order_id = evMinA.order_id ∧
    evMinB.timestamp = evMinA.timestamp ∧
    dictLookup evMinA.order_id (runDocs [docMinA, docMinB] emptyState).orders = none ∧
    dictLookup evMinA.order_id (runDocs [docMinA, docMinB] emptyState).details = none :=
  ⟨rfl, rfl, rfl, rfl, rfl, rfl⟩

/-- C3 (amended): an event whose `order_id` is not yet present is inserted
as the initial winner whenever its timestamp is strictly greater than the
sentinel `0001-01-01T00:00:00`; an event carrying exactly the minimal
representable timestamp is NOT inserted (the comparison against the
sentinel `datetime(1, 1, 1)` is strict), see the counterexample. -/
theorem merge_first_insert (s : MergeState) (e : ParsedEvent)
    (ho : dictLookup e.order_id s.orders = none)
    (hgt : minDT.lt e.timestamp = true) :
    dictLookup e.order_id (applyEvent s e).orders = some (headerOf e) ∧
    dictLookup e.order_id (applyEvent s e).details = some e.parts := by
  rw [applyEvent_not_present s e ho, hgt]
  simp only [if_true]
  exact ⟨dictLookup_insert_self _ _ _, dictLookup_insert_self _ _ _⟩

/-- C3 witness: the 2023-08-11 report of order 104 inserted into the empty
state becomes the initial winner. -/
theorem merge_first_insert_witness :
    dictLookup evA.order_id (applyEvent emptyState evA).orders = some (headerOf evA) ∧
    dictLookup evA.order_id (applyEvent emptyState evA).details = some evA.parts :=
  merge_first_insert emptyState evA rfl rfl

/-- C3 counterexample: a successfully parsed event carrying the minimal
representable timestamp `0001-01-01T00:00:00`, applied to a state in which
its `order_id` is absent, is NOT inserted — the merge state is returned
unchanged and still holds no entry for that order. -/
theorem merge_first_insert_counterexample :
    parseEvent docMinA = .ok evMinA ∧
    dictLookup evMinA.order_id emptyState.orders = none ∧
    applyEvent emptyState evMinA = emptyState ∧
    dictLookup evMinA.order_id (applyEvent emptyState evMinA).orders = none :=
  ⟨rfl, rfl, rfl, rfl⟩

/-- C4 (code evidence at the failing input): parsing the well-formed sample
document of `tests.py` coerces `order_id` to an integer, `cost` to a float
and the timestamp to the encoded instant, and preserves the two-element
parts list — but each part's `quantity` is stored as the raw attribute
string (`"2"`, `"1"`), NOT coerced to an integer: the constructor call
passes `part[Tag.QUANTITY]` without `int()`, although the dataclass
declares `quantity: int`. -/
theorem parse_quantity_uncoerced :
    parseEvent docA = .ok evA ∧
    evA.parts.map RepairOrderDetail.quantity = [PyVal.str "2", PyVal.str "1"] ∧
    evA.order_id = (104 : Int) ∧ evA.cost = ⟨110, 0⟩ ∧
    evA.timestamp = ⟨2023, 8, 11, 12, 0, 0⟩ :=
  ⟨rfl, rfl, rfl, rfl, rfl⟩

lemma except_bind_ok {α β : Type} (x : Except String α) (f : α → Except String β) (b : β) :
    (x >>= f) = .ok b ↔ ∃ a, x = .ok a ∧ f a = .ok b := by
  cases x <;> simp [Bind.bind, Except.bind]

lemma extractParts_length (oid : Int) (l : List PyVal) (ds : List RepairOrderDetail)
    (h : extractParts oid l = .ok ds) : ds.length = l.length := by
  induction l generalizing ds with
  | nil =>
    simp only [extractParts] at h
    cases h
    rfl
  | cons p rest ih =>
    simp only [extractParts, except_bind_ok] at h
    obtain ⟨d, _, ds', hds', hcons⟩ := h
    cases hcons
    simp [ih ds' hds']

/-- C5: every successful parse yields a list-shaped parts result: when the
raw parts block is a single mapping (one `part` element, no list wrapper),
it is re-wrapped into a one-element detail list; when it is a list, the
detail list has exactly one entry per element — so single-part and
multi-part documents produce structurally identical output shapes. -/
theorem parse_parts_list_shaped (doc : PyVal) (e : ParsedEvent)
    (h : parseEvent doc = .ok e) :
    (∀ m, partsFieldOf doc = .ok (.dict m) → ∃ d, e.parts = [d]) ∧
    (∀ l, partsFieldOf doc = .ok (.list l) → e.parts.length = l.length) := by
  simp only [parseEvent, except_bind_ok] at h
  obtain ⟨order_raw, h1, oidv, h2, oid, h3, status, h4, costv, h5, cost, h6,
    rd, h7, tech, h8, rp, h9, partsRaw, h10, partsList, h11, temp_list, h12,
    tsRaw, h13, ts, h14, hfin⟩ := h
  have hpf : partsFieldOf doc = .ok partsRaw := by
    simp only [partsFieldOf, except_bind_ok]
    exact ⟨order_raw, h1, rd, h7, rp, h9, h10⟩
  cases hfin
  constructor
  · intro m hm
    rw [hpf] at hm
    cases hm
    simp only [normalizeParts] at h11
    cases h11
    simp only [extractParts, except_bind_ok] at h12
    obtain ⟨d, hd, ds', hds', hcons⟩ := h12
    cases hds'
    cases hcons
    exact ⟨d, rfl⟩
  · intro l hl
    rw [hpf] at hl
    cases hl
    simp only [normalizeParts] at h11
    cases h11
    exact extractParts_length _ _ _ h12

/-- C5 witness: the single-part document `docB` (whose raw parts block is a
single mapping) parses to a one-element detail list, and the two-part
document `docA` parses to a two-element detail list. -/
theorem parse_parts_list_shaped_witness :
    (∃ d, evB.parts = [d]) ∧ evA.parts.length = 2 :=
  ⟨(parse_parts_list_shaped docB evB rfl).1
      [("@name", .str "Tire"), ("@quantity", .str "1")] rfl,
   (parse_parts_list_shaped docA evA rfl).2
      [.dict [("@name", .str "Tire"), ("@quantity", .str "2")],
       .dict [("@name", .str "Brake Fluid"), ("@quantity", .str "1")]] rfl⟩

lemma inv_applyEvent (s : MergeState) (e : ParsedEvent)
    (h1 : (s.orders.map Prod.fst).Nodup)
    (h2 : ∀ oid : Int, (dictLookup oid s.details).isSome = true →
      (dictLookup oid s.orders).isSome = true) :
    ((applyEvent s e).orders.map Prod.fst).Nodup ∧
    ∀ oid : Int, (dictLookup oid (applyEvent s e).details).isSome = true →
      (dictLookup oid (applyEvent s e).orders).isSome = true := by
  simp only [applyEvent]
  split
  · constructor
    · exact nodup_keys_insert _ _ _ h1
    · intro oid hd
      by_cases hoid : oid = e.order_id
      · subst hoid
        rw [dictLookup_insert_self]
        rfl
      · rw [dictLookup_insert_ne _ _ _ _ hoid] at hd
        rw [dictLookup_insert_ne _ _ _ _ hoid]
        exact h2 oid hd
  · exact ⟨h1, h2⟩

lemma inv_pipelineStep (s : MergeState) (d : PyVal)
    (h1 : (s.orders.map Prod.fst).Nodup)
    (h2 : ∀ oid : Int, (dictLookup oid s.details).isSome = true →
      (dictLookup oid s.orders).isSome = true) :
    ((pipelineStep s d).orders.map Prod.fst).Nodup ∧
    ∀ oid : Int, (dictLookup oid (pipelineStep s d).details).isSome = true →
      (dictLookup oid (pipelineStep s d).orders).isSome = true := by
  unfold pipelineStep
  cases hp : parseEvent d with
  | error msg => exact ⟨h1, h2⟩
  | ok e => exact inv_applyEvent s e h1 h2

lemma inv_runDocs (docs : List PyVal) : ∀ s : MergeState,
    (s.orders.map Prod.fst).Nodup →
    (∀ oid : Int, (dictLookup oid s.details).isSome = true →
      (dictLookup oid s.orders).isSome = true) →
    ((runDocs docs s).orders.map Prod.fst).Nodup ∧
    ∀ oid : Int, (dictLookup oid (runDocs docs s).details).isSome = true →
      (dictLookup oid (runDocs docs s).orders).isSome = true := by
  induction docs with
  | nil => exact fun s h1 h2 => ⟨h1, h2⟩
  | cons d rest ih =>
    intro s h1 h2
    have hstep := inv_pipelineStep s d h1 h2
    exact ih (pipelineStep s d) hstep.1 hstep.2

/-- C6: a document that fails to parse is discarded whole: the pipeline
step returns the merge state untouched (both the order mapping and the
detail mapping), and running the loop with the failing document in the
middle of the stream produces exactly the state of running it without that
document — processing continues, the run does not abort. -/
theorem parse_failure_skipped (bad : PyVal) (msg : String)
    (h : parseEvent bad = .error msg) :
    (∀ s : MergeState, pipelineStep s bad = s) ∧
    ∀ (pre post : List PyVal) (s : MergeState),
      runDocs (pre ++ bad :: post) s = runDocs (pre ++ post) s := by
  have hstep : ∀ s : MergeState, pipelineStep s bad = s := by
    intro s
    unfold pipelineStep
    rw [h]
  refine ⟨hstep, fun pre post s => ?_⟩
  unfold runDocs
  rw [List.foldl_append, List.foldl_append]
  simp only [List.foldl_cons, hstep]

/-- C6 witness: the document missing its `technician` field is skipped —
running `[docA, docBadTech, docB]` equals running `[docA, docB]`. -/
theorem parse_failure_skipped_witness :
    pipelineStep emptyState docBadTech = emptyState ∧
    runDocs ([docA] ++ docBadTech :: [docB]) emptyState =
      runDocs ([docA] ++ [docB]) emptyState :=
  ⟨(parse_failure_skipped docBadTech "KeyError: technician" rfl).1 emptyState,
   (parse_failure_skipped docBadTech "KeyError: technician" rfl).2 [docA] [docB] emptyState⟩

/-- C7: after any sequence of processed documents the merge state satisfies
both structural invariants: the order mapping holds at most one
`RepairOrder` per `order_id` (its keys are pairwise distinct), and every
`order_id` that has a detail list also has a `RepairOrder` header present
in the same state. -/
theorem merge_state_invariants (docs : List PyVal) :
    ((runDocs docs emptyState).orders.map Prod.fst).Nodup ∧
    ∀ oid : Int,
      (dictLookup oid (runDocs docs emptyState).details).isSome = true →
      (dictLookup oid (runDocs docs emptyState).orders).isSome = true := by
  refine inv_runDocs docs emptyState (by simp [emptyState]) ?_
  intro oid h
  simp [emptyState, dictLookup] at h

/-- C7 witness: after processing `docA`, order 104 has a detail list and,
by the invariant, also a header. -/
theorem merge_state_invariants_witness :
    (dictLookup 104 (runDocs [docA] emptyState).details).isSome = true ∧
    (dictLookup 104 (runDocs [docA] emptyState).orders).isSome = true :=
  ⟨rfl, (merge_state_invariants [docA]).2 104 rfl⟩

lemma createTargetTables_when_both (s : Store) (h1 : s.hasOrderTable = true)
    (h2 : s.hasDetailTable = true) :
    createTargetTables s = .ok { s with orderRows := [], detailRows := [] } := by
  simp [createTargetTables, deleteFrom, h1, h2, Bind.bind, Except.bind, pure, Except.pure]

lemma insertOrderRows_ok (s : Store) (rows : List OrderRow) (s1 : Store)
    (h : insertOrderRows s rows = .ok s1) :
    s1.orderRows = s.orderRows ++ rows ∧ s1.detailRows = s.detailRows := by
  unfold insertOrderRows at h
  split_ifs at h
  cases h
  exact ⟨rfl, rfl⟩

/-- C8 (amended): calling `create_target_tables` when both target tables
already exist raises no error and creates no duplicate tables (the
existence flags are untouched), but it does NOT leave the rows unchanged:
its final loop unconditionally deletes every row from both tables — the
full-reload reset is built into the same operation (see the
counterexample). -/
theorem create_tables_idempotent_but_resets (s : Store)
    (h1 : s.hasOrderTable = true) (h2 : s.hasDetailTable = true) :
    createTargetTables s = .ok { s with orderRows := [], detailRows := [] } :=
  createTargetTables_when_both s h1 h2

/-- C8 witness: on a store where both tables exist, `create_target_tables`
succeeds, leaving the tables in place and the rows empty. -/
theorem create_tables_idempotent_but_resets_witness :
    createTargetTables storeEmptyTables =
      .ok { storeEmptyTables with orderRows := [], detailRows := [] } :=
  create_tables_idempotent_but_resets storeEmptyTables rfl rfl

/-- C8 counterexample: a store where both tables exist and the header table
holds a row; `create_target_tables` succeeds but returns a store with both
tables emptied — the pre-existing row is deleted, so the store's state is
NOT left unchanged. -/
theorem create_tables_counterexample :
    createTargetTables storeWithRow = .ok ⟨true, true, [], []⟩ ∧
    storeWithRow.hasOrderTable = true ∧ storeWithRow.hasDetailTable = true ∧
    storeWithRow.orderRows ≠ [] :=
  ⟨rfl, rfl, rfl, by simp [storeWithRow]⟩

/-- C9: the reset step of `create_target_tables` deletes from the detail
table strictly before the header table (the loop order is
`repair_order_detail`, then `repair_order`), so when the foreign key holds
before the operation, every intermediate state — before, between the two
deletes, and after — satisfies it, and the final state has both tables
empty. -/
theorem reset_deletes_child_first (s : Store)
    (h1 : s.hasOrderTable = true) (h2 : s.hasDetailTable = true)
    (hfk : fkOK s = true) :
    resetTableOrder = ["repair_order_detail", "repair_order"] ∧
    ∃ s1 s2 : Store,
      deleteFrom s "repair_order_detail" = .ok s1 ∧
      deleteFrom s1 "repair_order" = .ok s2 ∧
      createTargetTables s = .ok s2 ∧
      fkOK s = true ∧ fkOK s1 = true ∧ fkOK s2 = true ∧
      s2.detailRows = [] ∧ s2.orderRows = [] := by
  refine ⟨rfl, { s with detailRows := [] },
    { s with orderRows := [], detailRows := [] }, ?_, ?_,
    createTargetTables_when_both s h1 h2, hfk, ?_, ?_, rfl, rfl⟩
  · simp [deleteFrom, h2]
  · simp [deleteFrom, h1]
  · simp [fkOK]
  · simp [fkOK]

/-- C9 witness: a populated store (header row 104 with a matching detail
row) is reset child-table-first, with the foreign key intact at every
intermediate state. -/
theorem reset_deletes_child_first_witness :
    resetTableOrder = ["repair_order_detail", "repair_order"] ∧
    ∃ s1 s2 : Store,
      deleteFrom storePopulated "repair_order_detail" = .ok s1 ∧
      deleteFrom s1 "repair_order" = .ok s2 ∧
      createTargetTables storePopulated = .ok s2 ∧
      fkOK storePopulated = true ∧ fkOK s1 = true ∧ fkOK s2 = true ∧
      s2.detailRows = [] ∧ s2.orderRows = [] :=
  reset_deletes_child_first storePopulated rfl rfl rfl

/-- C10: the load block attempts the header bulk insert strictly before the
detail bulk insert (the trace is always `[insertOrders]` or
`[insertOrders, insertDetails]`, never details first); if the header insert
fails the run exits with code 1 without attempting the detail insert and
with the store as the header insert left it; if the detail insert fails
after the header insert succeeded, the run exits with code 1 leaving the
appended header rows persisted; on success both inserts ran, in order, and
the exit code is 0. -/
theorem load_block_semantics (s : Store) (hdrs : List OrderRow) (dtls : List DetailRow) :
    ((loadBlock s hdrs dtls).2.2 = [LoadOp.insertOrders] ∨
     (loadBlock s hdrs dtls).2.2 = [LoadOp.insertOrders, LoadOp.insertDetails]) ∧
    (∀ msg, insertOrderRows s hdrs = .error msg →
      loadBlock s hdrs dtls = (s, 1, [LoadOp.insertOrders])) ∧
    (∀ s1 msg, insertOrderRows s hdrs = .ok s1 →
      insertDetailRows s1 dtls = .error msg →
      loadBlock s hdrs dtls = (s1, 1, [LoadOp.insertOrders, LoadOp.insertDetails]) ∧
      s1.orderRows = s.orderRows ++ hdrs ∧ s1.detailRows = s.detailRows) ∧
    (∀ s1 s2, insertOrderRows s hdrs = .ok s1 → insertDetailRows s1 dtls = .ok s2 →
      loadBlock s hdrs dtls = (s2, 0, [LoadOp.insertOrders, LoadOp.insertDetails])) := by
  refine ⟨?_, ?_, ?_, ?_⟩
  · rcases ho : insertOrderRows s hdrs with e | s1
    · simp [loadBlock, ho]
    · rcases hd : insertDetailRows s1 dtls with e2 | s2 <;> simp [loadBlock, ho, hd]
  · intro msg h
    unfold loadBlock
    rw [h]
  · intro s1 msg hok herr
    refine ⟨?_, (insertOrderRows_ok s hdrs s1 hok).1, (insertOrderRows_ok s hdrs s1 hok).2⟩
    simp [loadBlock, hok, herr]
  · intro s1 s2 hok1 hok2
    simp [loadBlock, hok1, hok2]

/-- C10 witness: three concrete runs — a store with no tables makes the
header insert fail (exit 1, detail insert never attempted); a duplicate
detail pair makes the detail insert fail after the header insert succeeded
(exit 1, header row persisted); a clean pair of rows loads with exit 0. -/
theorem load_block_semantics_witness :
    loadBlock storeNoTables [rowA] [detailRowA] = (storeNoTables, 1, [LoadOp.insertOrders]) ∧
    (loadBlock storeEmptyTables [rowA] [detailRowA, detailRowA] =
        ((⟨true, true, [rowA], []⟩ : Store), 1,
          [LoadOp.insertOrders, LoadOp.insertDetails]) ∧
      (⟨true, true, [rowA], []⟩ : Store).orderRows = storeEmptyTables.orderRows ++ [rowA] ∧
      (⟨true, true, [rowA], []⟩ : Store).detailRows = storeEmptyTables.detailRows) ∧
    loadBlock storeEmptyTables [rowA] [detailRowA] =
      ((⟨true, true, [rowA], [detailRowA]⟩ : Store), 0,
        [LoadOp.insertOrders, LoadOp.insertDetails]) :=
  ⟨(load_block_semantics storeNoTables [rowA] [detailRowA]).2.1
      "no such table: repair_order" rfl,
   (load_block_semantics storeEmptyTables [rowA] [detailRowA, detailRowA]).2.2.1
      ⟨true, true, [rowA], []⟩
      "UNIQUE constraint failed: repair_order_detail.order_id, repair_order_detail.part_name"
      rfl rfl,
   (load_block_semantics storeEmptyTables [rowA] [detailRowA]).2.2.2
      ⟨true, true, [rowA], []⟩ ⟨true, true, [rowA], [detailRowA]⟩ rfl rfl⟩
